import Mathlib

/-!
Verification of the label-detection and box-geometry engine of
amazon-label-tool (functions/api/process.js, plus the client-driven
variant of the same endpoint).

Modelling conventions:
* JavaScript numbers are idealised as exact rationals, extended with the
  IEEE special values +Infinity, -Infinity and NaN in the places where the
  code can actually produce them (the bounding-box reduces are seeded with
  { minX: Infinity, maxX: -Infinity, ... }).  The type `JNum` carries these
  special values and its operations follow the JavaScript semantics of
  `Math.min`, `Math.max`, `+`, `-` and `/ 2` on them.
* Text tokens extracted from a content stream always carry finite
  coordinates, so token boxes use plain rationals.
* String operations (`trim`, `replace(/\s+/g,'')`, `toLowerCase`,
  `includes`) are modelled on `List Char`; the whitespace class is the
  common (ASCII plus NBSP/BOM) subset of the JavaScript `\s` class, which
  is all that matters for the properties below.
-/

namespace AmazonLabelTool

/-- A JavaScript number as produced by the geometry code: NaN, the two
infinities, or a finite value idealised as a rational. -/
inductive JNum where
  | nan : JNum
  | pinf : JNum
  | minf : JNum
  | fin : ℚ → JNum
deriving DecidableEq, Repr

/-- JavaScript `Math.min`: NaN-absorbing, `-Infinity` dominating. -/
def jmin : JNum → JNum → JNum
  | .nan, _ => .nan
  | _, .nan => .nan
  | .minf, _ => .minf
  | _, .minf => .minf
  | .pinf, b => b
  | a, .pinf => a
  | .fin a, .fin b => .fin (min a b)

/-- JavaScript `Math.max`: NaN-absorbing, `+Infinity` dominating. -/
def jmax : JNum → JNum → JNum
  | .nan, _ => .nan
  | _, .nan => .nan
  | .pinf, _ => .pinf
  | _, .pinf => .pinf
  | .minf, b => b
  | a, .minf => a
  | .fin a, .fin b => .fin (max a b)

/-- JavaScript unary minus on numbers. -/
def jneg : JNum → JNum
  | .nan => .nan
  | .pinf => .minf
  | .minf => .pinf
  | .fin q => .fin (-q)

/-- JavaScript `+` on numbers: `Infinity + (-Infinity)` is NaN. -/
def jadd : JNum → JNum → JNum
  | .nan, _ => .nan
  | _, .nan => .nan
  | .pinf, .minf => .nan
  | .minf, .pinf => .nan
  | .pinf, _ => .pinf
  | _, .pinf => .pinf
  | .minf, _ => .minf
  | _, .minf => .minf
  | .fin a, .fin b => .fin (a + b)

/-- JavaScript `-` on numbers, as `a + (-b)` (IEEE-equivalent). -/
def jsub (a b : JNum) : JNum := jadd a (jneg b)

/-- JavaScript `/ 2` on numbers. -/
def jhalf : JNum → JNum
  | .nan => .nan
  | .pinf => .pinf
  | .minf => .minf
  | .fin q => .fin (q / 2)

/-- The box of an extracted text token: `{ x, y, width, height }`, always
finite. -/
structure TokenBox where
  x : ℚ
  y : ℚ
  width : ℚ
  height : ℚ
deriving DecidableEq, Repr

/-- A text token `{ str, box }` as produced by `getTextItemsWithCoords`. -/
structure TextItem where
  str : String
  box : TokenBox
deriving DecidableEq, Repr

/-- The accumulator of the bounding-box `reduce`, seeded with
`{ minX: Infinity, maxX: -Infinity, minY: Infinity, maxY: -Infinity }`. -/
structure FoldBox where
  minX : JNum
  maxX : JNum
  minY : JNum
  maxY : JNum
deriving DecidableEq, Repr

/-- A rectangle with JavaScript-number coordinates (a label box or a
removal area). -/
structure JRect where
  x : JNum
  y : JNum
  width : JNum
  height : JNum
deriving DecidableEq, Repr

/-- A detected label: its bounding box and the member tokens. -/
structure Label where
  box : JRect
  items : List TextItem
deriving DecidableEq, Repr

/-- The whitespace class used by `trim` and `replace(/\s+/g,'')` (the
ASCII whitespace characters plus NBSP and BOM). -/
def jsWS (c : Char) : Bool :=
  c = ' ' || c = '\t' || c = '\n' || c = '\r' ||
  c = Char.ofNat 11 || c = Char.ofNat 12 || c = Char.ofNat 160 ||
  c = Char.ofNat 65279

/-- JavaScript `String.prototype.trim` on the character list. -/
def jsTrim (cs : List Char) : List Char :=
  ((cs.dropWhile jsWS).reverse.dropWhile jsWS).reverse

/-- JavaScript `str.replace(/\s+/g, '').toLowerCase()` on the character list. -/
def cleanChars (cs : List Char) : List Char :=
  (cs.filter (fun c => !jsWS c)).map Char.toLower

/-- Decides whether the first list starts the second list
(`leadsB n h` is true when `n` begins `h`). -/
def leadsB : List Char → List Char → Bool
  | [], _ => true
  | _ :: _, [] => false
  | a :: as, b :: bs => a = b && leadsB as bs

/-- JavaScript `hay.includes(needle)` on character lists
(`containsB needle hay`). -/
def containsB (needle : List Char) : List Char → Bool
  | [] => leadsB needle []
  | c :: rest => leadsB needle (c :: rest) || containsB needle rest

/-- Membership in the character class `[A-Z0-9]` of `FNSKU_REGEX`. -/
def upperDigit (c : Char) : Bool :=
  (decide ('A' ≤ c) && decide (c ≤ 'Z')) ||
  (decide ('0' ≤ c) && decide (c ≤ '9'))

/-- The suffix check `[A-Z0-9]{8,10}$`: the remainder after the leading
literal must be 8 to 10 characters from the class, running to the end of
the string. -/
def tailOk (cs : List Char) : Bool :=
  decide (8 ≤ cs.length) && decide (cs.length ≤ 10) && cs.all upperDigit

/-- The matcher `FNSKU_REGEX = /^(X00|B0)[A-Z0-9]{8,10}$/` on the
character list: the anchored alternation of the two leading literals,
each followed by the bounded character-class repetition to the end. -/
def fnskuMatchL (cs : List Char) : Bool :=
  (leadsB ['X', '0', '0'] cs && tailOk (cs.drop 3)) ||
  (leadsB ['B', '0'] cs && tailOk (cs.drop 2))

/-- The anchor test `FNSKU_REGEX.test(item.str.trim())`. -/
def isAnchor (it : TextItem) : Bool :=
  fnskuMatchL (jsTrim it.str.data)

/-- The coordinate transform applied before clustering:
`{...item, box: {...item.box, y: pageHeight - item.box.y - item.box.height}}`. -/
def transformItem (pageHeight : ℚ) (it : TextItem) : TextItem :=
  { it with box := { it.box with y := pageHeight - it.box.y - it.box.height } }

/-- The search-window test of `findLabelsByFnsku`: with
`searchBox = { minX: ax-120, maxX: ax+120, minY: ay-60, maxY: ay+60 }`,
keep `item` when `item.box.x > searchBox.minX && item.box.x < searchBox.maxX
&& itemCenterY > searchBox.minY && itemCenterY < searchBox.maxY` where
`itemCenterY = item.box.y + item.box.height / 2`. -/
def inWindowB (anchor it : TextItem) : Bool :=
  decide (anchor.box.x - 120 < it.box.x) &&
  decide (it.box.x < anchor.box.x + 120) &&
  decide (anchor.box.y - 60 < it.box.y + it.box.height / 2) &&
  decide (it.box.y + it.box.height / 2 < anchor.box.y + 60)

/-- One step of the bounding-box `reduce` shared by `findLabelsByFnsku`
and `findTextInLabel`. -/
def unionStep (b : FoldBox) (it : TextItem) : FoldBox :=
  { minX := jmin b.minX (.fin it.box.x)
    maxX := jmax b.maxX (.fin (it.box.x + it.box.width))
    minY := jmin b.minY (.fin it.box.y)
    maxY := jmax b.maxY (.fin (it.box.y + it.box.height)) }

/-- The bounding-box `reduce`, seeded with
`{ minX: Infinity, maxX: -Infinity, minY: Infinity, maxY: -Infinity }`. -/
def unionFold (items : List TextItem) : FoldBox :=
  items.foldl unionStep ⟨.pinf, .minf, .pinf, .minf⟩

/-- The label box returned by `findLabelsByFnsku`:
`{ x: labelBox.minX, y: pageHeight - labelBox.maxY,
   width: labelBox.maxX - labelBox.minX, height: labelBox.maxY - labelBox.minY }`. -/
def labelBoxOf (pageHeight : ℚ) (u : FoldBox) : JRect :=
  { x := u.minX
    y := jsub (.fin pageHeight) u.maxY
    width := jsub u.maxX u.minX
    height := jsub u.maxY u.minY }

/-- The body of the `anchors.map(...)` in `findLabelsByFnsku`: filter the
(already transformed) items by the anchor's search window and build the
label from their bounding box. -/
def labelForAnchor (tItems : List TextItem) (pageHeight : ℚ)
    (anchor : TextItem) : Label :=
  let labelItems := tItems.filter (inWindowB anchor)
  { box := labelBoxOf pageHeight (unionFold labelItems), items := labelItems }

/-- The clusterer `findLabelsByFnsku(items, pageHeight)`. -/
def findLabelsByFnsku (items : List TextItem) (pageHeight : ℚ) : List Label :=
  let transformedItems := items.map (transformItem pageHeight)
  let anchors := transformedItems.filter isAnchor
  anchors.map (labelForAnchor transformedItems pageHeight)

/-- The matched items of `findTextInLabel`: member tokens whose cleaned
text is contained in the cleaned search text
(`cleanSearchText.includes(item.str.replace(/\s+/g,'').toLowerCase())`). -/
def matchedOf (label : Label) (searchText : String) : List TextItem :=
  let cleanSearchText := cleanChars searchText.data
  label.items.filter (fun item => containsB (cleanChars item.str.data) cleanSearchText)

/-- The resolver `findTextInLabel(label, searchText)`: empty when nothing matched,
otherwise the single rectangle
`{ x: unionBox.minX - 2, y: label.box.height + label.box.y - unionBox.maxY - 2,
   width: unionBox.maxX - unionBox.minX + 4, height: unionBox.maxY - unionBox.minY + 4 }`. -/
def findTextInLabel (label : Label) (searchText : String) : List JRect :=
  let matchedItems := matchedOf label searchText
  if matchedItems = [] then []
  else
    let u := unionFold matchedItems
    [{ x := jsub u.minX (.fin 2)
       y := jsub (jsub (jadd label.box.height label.box.y) u.maxY) (.fin 2)
       width := jadd (jsub u.maxX u.minX) (.fin 4)
       height := jadd (jsub u.maxY u.minY) (.fin 4) }]

/-- The per-label removal step of `onRequest`:
`if (textToRemove) { const removeAreas = findTextInLabel(label, textToRemove); ... }` —
a falsy (empty) search string short-circuits to no removal areas. -/
def removeAreasForLabel (label : Label) (textToRemove : String) : List JRect :=
  if textToRemove = "" then [] else findTextInLabel label textToRemove

/-- Token construction in `getTextItemsWithCoords` for a text block whose
matrix operands are `[a b c d e f]` and whose shown text is `text`:
`fontSize = matrix[0] > 0 ? matrix[0] : matrix[3]`, position `(e, f)`,
`approxWidth = text.length * fontSize * 0.55`, `approxHeight = fontSize`. -/
def mkTextItem (a b c d e f : ℚ) (text : String) : TextItem :=
  let fontSize := if 0 < a then a else d
  { str := text
    box := { x := e, y := f
             width := (text.length : ℚ) * fontSize * (55 / 100)
             height := fontSize } }

/-- The x-coordinate of the inserted text in `onRequest`:
`label.box.x + (label.box.width - textWidth) / 2`. -/
def insertionX (box : JRect) (textWidth : ℚ) : JNum :=
  jadd box.x (jhalf (jsub box.width (.fin textWidth)))

/-- The y-coordinate of the inserted text in `onRequest`:
`label.box.y + 2` (2pt margin from bottom). -/
def insertionY (box : JRect) : JNum :=
  jadd box.y (.fin 2)

/-- Text placement in the client-driven variant of the endpoint:
`x: textInfo.x - textWidth / 2, y: textInfo.y`. -/
def addTextPlacement (x y textWidth : ℚ) : ℚ × ℚ :=
  (x - textWidth / 2, y)

/-! ### Spec-side predicates

These follow the wording of the specification (not the code) and are used
to state the refinement claims about the regex matcher and the substring
test. -/

/-- Membership in the class described by the spec: an uppercase letter or
a digit. -/
def upperDigitP (c : Char) : Prop :=
  ('A' ≤ c ∧ c ≤ 'Z') ∨ ('0' ≤ c ∧ c ≤ '9')

/-- Modelled from the spec wording of the anchor pattern: the whole string
is the literal "X00" or "B0" followed by 8 to 10 characters that are
uppercase letters or digits, with nothing before or after. -/
def fnskuSpecL (cs : List Char) : Prop :=
  (∃ t, cs = ['X', '0', '0'] ++ t ∧ 8 ≤ t.length ∧ t.length ≤ 10 ∧
    ∀ c ∈ t, upperDigitP c) ∨
  (∃ t, cs = ['B', '0'] ++ t ∧ 8 ≤ t.length ∧ t.length ≤ 10 ∧
    ∀ c ∈ t, upperDigitP c)

/-! ### String lemmas -/

theorem leadsB_iff (n : List Char) : ∀ h : List Char,
    leadsB n h = true ↔ ∃ t, h = n ++ t := by
  induction n with
  | nil =>
    intro h
    simp [leadsB]
  | cons a as ih =>
    intro h
    cases h with
    | nil => simp [leadsB]
    | cons b bs =>
      simp only [leadsB, Bool.and_eq_true, decide_eq_true_eq, ih bs,
        List.cons_append, List.cons.injEq]
      constructor
      · rintro ⟨rfl, t, rfl⟩
        exact ⟨t, rfl, rfl⟩
      · rintro ⟨t, hb, hbs⟩
        exact ⟨hb.symm, t, hbs⟩

theorem containsB_iff (n : List Char) : ∀ h : List Char,
    containsB n h = true ↔ ∃ pre post, h = pre ++ n ++ post := by
  intro h
  induction h with
  | nil =>
    simp [containsB, leadsB_iff]
  | cons c rest ih =>
    simp only [containsB, Bool.or_eq_true, leadsB_iff, ih]
    constructor
    · rintro (⟨t, ht⟩ | ⟨pre, post, hp⟩)
      · exact ⟨[], t, by simp [ht]⟩
      · exact ⟨c :: pre, post, by simp [hp]⟩
    · rintro ⟨pre, post, hp⟩
      cases pre with
      | nil =>
        left
        exact ⟨post, by simpa using hp⟩
      | cons p ps =>
        right
        rw [List.cons_append, List.cons_append] at hp
        obtain ⟨h1, h2⟩ := List.cons.injEq .. ▸ hp
        exact ⟨ps, post, h2⟩

theorem upperDigit_iff (c : Char) : upperDigit c = true ↔ upperDigitP c := by
  simp [upperDigit, upperDigitP, Bool.or_eq_true, Bool.and_eq_true,
    decide_eq_true_eq]

theorem tailOk_iff (cs : List Char) :
    tailOk cs = true ↔ 8 ≤ cs.length ∧ cs.length ≤ 10 ∧ ∀ c ∈ cs, upperDigitP c := by
  simp [tailOk, Bool.and_eq_true, decide_eq_true_eq, List.all_eq_true,
    upperDigit_iff, and_assoc]

theorem fnskuMatchL_iff (cs : List Char) :
    fnskuMatchL cs = true ↔ fnskuSpecL cs := by
  simp only [fnskuMatchL, Bool.or_eq_true, Bool.and_eq_true, leadsB_iff,
    tailOk_iff, fnskuSpecL]
  constructor
  · rintro (⟨⟨t, rfl⟩, h⟩ | ⟨⟨t, rfl⟩, h⟩)
    · exact Or.inl ⟨t, rfl, by simpa using h⟩
    · exact Or.inr ⟨t, rfl, by simpa using h⟩
  · rintro (⟨t, rfl, h⟩ | ⟨t, rfl, h⟩)
    · exact Or.inl ⟨⟨t, rfl⟩, by simpa using h⟩
    · exact Or.inr ⟨⟨t, rfl⟩, by simpa using h⟩

/-! ### Bounding-box fold lemmas -/

theorem foldl_unionStep_fin (l : List TextItem) : ∀ a b c d : ℚ,
    List.foldl unionStep ⟨.fin a, .fin b, .fin c, .fin d⟩ l =
      ⟨.fin (l.foldl (fun m it => min m it.box.x) a),
       .fin (l.foldl (fun m it => max m (it.box.x + it.box.width)) b),
       .fin (l.foldl (fun m it => min m it.box.y) c),
       .fin (l.foldl (fun m it => max m (it.box.y + it.box.height)) d)⟩ := by
  induction l with
  | nil => intro a b c d; rfl
  | cons it rest ih =>
    intro a b c d
    simp only [List.foldl_cons, unionStep, jmin, jmax]
    exact ih _ _ _ _

theorem unionFold_cons (it : TextItem) (rest : List TextItem) :
    unionFold (it :: rest) =
      ⟨.fin (rest.foldl (fun m jt => min m jt.box.x) it.box.x),
       .fin (rest.foldl (fun m jt => max m (jt.box.x + jt.box.width))
          (it.box.x + it.box.width)),
       .fin (rest.foldl (fun m jt => min m jt.box.y) it.box.y),
       .fin (rest.foldl (fun m jt => max m (jt.box.y + jt.box.height))
          (it.box.y + it.box.height))⟩ := by
  show List.foldl unionStep (unionStep ⟨.pinf, .minf, .pinf, .minf⟩ it) rest = _
  have h1 : unionStep ⟨.pinf, .minf, .pinf, .minf⟩ it =
      ⟨.fin it.box.x, .fin (it.box.x + it.box.width),
       .fin it.box.y, .fin (it.box.y + it.box.height)⟩ := rfl
  rw [h1, foldl_unionStep_fin]

theorem foldl_min_le_init (f : TextItem → ℚ) (l : List TextItem) :
    ∀ a : ℚ, l.foldl (fun m it => min m (f it)) a ≤ a := by
  induction l with
  | nil => intro a; exact le_refl a
  | cons it rest ih =>
    intro a
    exact le_trans (ih (min a (f it))) (min_le_left _ _)

theorem foldl_min_le_mem (f : TextItem → ℚ) (l : List TextItem)
    (it : TextItem) (h : it ∈ l) :
    ∀ a : ℚ, l.foldl (fun m jt => min m (f jt)) a ≤ f it := by
  induction l with
  | nil => cases h
  | cons hd rest ih =>
    intro a
    rcases List.mem_cons.mp h with heq | hmem
    · subst heq
      exact le_trans (foldl_min_le_init f rest _) (min_le_right _ _)
    · exact ih hmem _

theorem foldl_max_init_le (f : TextItem → ℚ) (l : List TextItem) :
    ∀ a : ℚ, a ≤ l.foldl (fun m it => max m (f it)) a := by
  induction l with
  | nil => intro a; exact le_refl a
  | cons it rest ih =>
    intro a
    exact le_trans (le_max_left _ _) (ih (max a (f it)))

theorem foldl_max_mem_le (f : TextItem → ℚ) (l : List TextItem)
    (it : TextItem) (h : it ∈ l) :
    ∀ a : ℚ, f it ≤ l.foldl (fun m jt => max m (f jt)) a := by
  induction l with
  | nil => cases h
  | cons hd rest ih =>
    intro a
    rcases List.mem_cons.mp h with heq | hmem
    · subst heq
      exact le_trans (le_max_right _ _) (foldl_max_init_le f rest _)
    · exact ih hmem _

/-- On a non-empty member list the bounding-box fold yields finite values
that bound every member. -/
theorem unionFold_bounds (items : List TextItem) (it : TextItem)
    (h : it ∈ items) :
    ∃ a b c d : ℚ,
      unionFold items = ⟨.fin a, .fin b, .fin c, .fin d⟩ ∧
      a ≤ it.box.x ∧ it.box.x + it.box.width ≤ b ∧
      c ≤ it.box.y ∧ it.box.y + it.box.height ≤ d := by
  cases items with
  | nil => cases h
  | cons hd rest =>
    refine ⟨_, _, _, _, unionFold_cons hd rest, ?_, ?_, ?_, ?_⟩
    · rcases List.mem_cons.mp h with heq | hmem
      · subst heq; exact foldl_min_le_init _ rest _
      · exact foldl_min_le_mem _ rest it hmem _
    · rcases List.mem_cons.mp h with heq | hmem
      · subst heq; exact foldl_max_init_le _ rest _
      · exact foldl_max_mem_le _ rest it hmem _
    · rcases List.mem_cons.mp h with heq | hmem
      · subst heq; exact foldl_min_le_init _ rest _
      · exact foldl_min_le_mem _ rest it hmem _
    · rcases List.mem_cons.mp h with heq | hmem
      · subst heq; exact foldl_max_init_le _ rest _
      · exact foldl_max_mem_le _ rest it hmem _

/-! ### Claim theorems -/

/-- C1: for every input token list and page height, `findLabelsByFnsku`
produces exactly one Label per anchor-matching token — the map of the
per-anchor label builder over the (coordinate-transformed) matching
tokens — and the number of returned labels equals the number of tokens of
the input whose trimmed text matches the identifier pattern; no
deduplication or merging across anchors happens. -/
theorem clusterer_one_label_per_anchor (items : List TextItem) (pageHeight : ℚ) :
    findLabelsByFnsku items pageHeight =
      ((items.map (transformItem pageHeight)).filter isAnchor).map
        (labelForAnchor (items.map (transformItem pageHeight)) pageHeight) ∧
    (findLabelsByFnsku items pageHeight).length =
      (items.filter isAnchor).length := by
  refine ⟨rfl, ?_⟩
  show (((items.map (transformItem pageHeight)).filter isAnchor).map
      (labelForAnchor (items.map (transformItem pageHeight)) pageHeight)).length = _
  rw [List.length_map]
  induction items with
  | nil => rfl
  | cons it rest ih =>
    have hT : isAnchor (transformItem pageHeight it) = isAnchor it := rfl
    simp only [List.map_cons, List.filter_cons, hT]
    cases h : isAnchor it <;> simp [ih]

/-- C2: a token is an anchor if and only if its trimmed text fully matches
the pattern: the literal "X00" or "B0" followed by 8 to 10 characters from
the class of uppercase letters and digits, with nothing before or after;
in particular "A012345678" is never an anchor, and a matching string
embedded in longer text is never an anchor. -/
theorem anchor_pattern_characterisation :
    (∀ it : TextItem, isAnchor it = true ↔ fnskuSpecL (jsTrim it.str.data)) ∧
    isAnchor ⟨("A012345678"), ⟨0, 0, 0, 0⟩⟩ = false ∧
    isAnchor ⟨("xxB0ABCDEFGHyy"), ⟨0, 0, 0, 0⟩⟩ = false ∧
    containsB ("B0ABCDEFGH").data ("xxB0ABCDEFGHyy").data = true := by
  refine ⟨fun it => fnskuMatchL_iff _, by decide, by decide, by decide⟩

/-- C3: a token belongs to the label built for an anchor if and only if it
is one of the (transformed) page tokens, its x-coordinate lies strictly
within plus or minus 120 of the anchor's x, and its vertical center
(y plus half its height) lies strictly within plus or minus 60 of the
anchor's y; membership depends on nothing else. -/
theorem window_membership (tItems : List TextItem) (pageHeight : ℚ)
    (anchor t : TextItem) :
    t ∈ (labelForAnchor tItems pageHeight anchor).items ↔
      t ∈ tItems ∧
      anchor.box.x - 120 < t.box.x ∧ t.box.x < anchor.box.x + 120 ∧
      anchor.box.y - 60 < t.box.y + t.box.height / 2 ∧
      t.box.y + t.box.height / 2 < anchor.box.y + 60 := by
  simp [labelForAnchor, List.mem_filter, inWindowB, Bool.and_eq_true,
    decide_eq_true_eq, and_assoc]

/-- C8: an empty search string short-circuits the per-label removal step
of the request handler, producing zero removal areas regardless of the
label's member tokens. -/
theorem empty_search_produces_no_removal_areas (label : Label) :
    removeAreasForLabel label ("") = [] := by
  simp [removeAreasForLabel]

/-- C9: removal-area computation is a deterministic pure function — two
invocations of `findTextInLabel` on identical inputs return identical
results (in the embedding the function is pure, mirroring the fact that
the code only reads its inputs through `filter` and `reduce`). -/
theorem removal_area_deterministic (label label2 : Label) (s s2 : String)
    (hl : label = label2) (hs : s = s2) :
    findTextInLabel label s = findTextInLabel label2 s2 := by
  subst hl; subst hs; rfl

/-- Witness for C9 at a concrete label and search string. -/
theorem removal_area_deterministic_witness :
    findTextInLabel ⟨⟨.fin 0, .fin 0, .fin 100, .fin 50⟩,
        [⟨("sometext"), ⟨10, 10, 30, 8⟩⟩]⟩ ("SomeText") =
      findTextInLabel ⟨⟨.fin 0, .fin 0, .fin 100, .fin 50⟩,
        [⟨("sometext"), ⟨10, 10, 30, 8⟩⟩]⟩ ("SomeText") :=
  removal_area_deterministic _ _ _ _ rfl rfl

/-- C5: for every non-empty token set, the union bounding box computed by
the fold shared by `findLabelsByFnsku` and `findTextInLabel` is a true
bounding box: its minima are at most every member's x (resp. y) and its
maxima at least every member's x plus width (resp. y plus height); and the
label rectangle assembled from it satisfies box.x equal to the minimum and
box.x plus box.width equal to the maximum. -/
theorem union_box_is_bounding_box (items : List TextItem) (pageHeight : ℚ)
    (it : TextItem) (h : it ∈ items) :
    ∃ a b c d : ℚ,
      unionFold items = ⟨.fin a, .fin b, .fin c, .fin d⟩ ∧
      a ≤ it.box.x ∧ it.box.x + it.box.width ≤ b ∧
      c ≤ it.box.y ∧ it.box.y + it.box.height ≤ d ∧
      (labelBoxOf pageHeight (unionFold items)).x = .fin a ∧
      jadd (labelBoxOf pageHeight (unionFold items)).x
        (labelBoxOf pageHeight (unionFold items)).width = .fin b := by
  obtain ⟨a, b, c, d, hu, h1, h2, h3, h4⟩ := unionFold_bounds items it h
  refine ⟨a, b, c, d, hu, h1, h2, h3, h4, ?_, ?_⟩
  · rw [hu]
    rfl
  · rw [hu]
    show jadd (.fin a) (jsub (.fin b) (.fin a)) = .fin b
    simp only [jsub, jneg, jadd]
    congr 1
    ring

/-- Witness for C5 at a concrete singleton token list. -/
theorem union_box_is_bounding_box_witness :
    ∃ a b c d : ℚ,
      unionFold [⟨("sometext"), ⟨10, 10, 30, 8⟩⟩] =
        ⟨.fin a, .fin b, .fin c, .fin d⟩ ∧
      a ≤ (10 : ℚ) ∧ (10 : ℚ) + 30 ≤ b ∧ c ≤ (10 : ℚ) ∧ (10 : ℚ) + 8 ≤ d ∧
      (labelBoxOf 800 (unionFold [⟨("sometext"), ⟨10, 10, 30, 8⟩⟩])).x = .fin a ∧
      jadd (labelBoxOf 800 (unionFold [⟨("sometext"), ⟨10, 10, 30, 8⟩⟩])).x
        (labelBoxOf 800 (unionFold [⟨("sometext"), ⟨10, 10, 30, 8⟩⟩])).width =
        .fin b :=
  union_box_is_bounding_box _ 800 _ (List.mem_cons_self _ _)

/-- C4: in `findTextInLabel` a member token is matched if and only if the
whitespace-stripped, lower-cased search string contains the
whitespace-stripped, lower-cased token text as a substring (the token
wholly contained in the search phrase); when no token matches the result
is the empty list (not an error); and when at least one token matches the
result is the single rectangle obtained from the union bounding box of
the matched tokens expanded by exactly 2 units on every side, with
y flipped into the label-local frame as
y equals label.height plus label.y minus the union maximum y minus 2. -/
theorem removal_area_spec (label : Label) (searchText : String) :
    (∀ it, it ∈ matchedOf label searchText ↔
      it ∈ label.items ∧
      ∃ pre post, cleanChars searchText.data =
        pre ++ cleanChars it.str.data ++ post) ∧
    (findTextInLabel label searchText = [] ↔ matchedOf label searchText = []) ∧
    (∀ bh byq : ℚ, label.box.height = .fin bh → label.box.y = .fin byq →
      ∀ it rest, matchedOf label searchText = it :: rest →
      findTextInLabel label searchText =
        [{ x := .fin ((rest.foldl (fun m jt => min m jt.box.x) it.box.x) - 2)
           y := .fin (bh + byq -
             (rest.foldl (fun m jt => max m (jt.box.y + jt.box.height))
               (it.box.y + it.box.height)) - 2)
           width := .fin ((rest.foldl (fun m jt => max m (jt.box.x + jt.box.width))
               (it.box.x + it.box.width)) -
             (rest.foldl (fun m jt => min m jt.box.x) it.box.x) + 4)
           height := .fin ((rest.foldl (fun m jt => max m (jt.box.y + jt.box.height))
               (it.box.y + it.box.height)) -
             (rest.foldl (fun m jt => min m jt.box.y) it.box.y) + 4) }]) := by
  refine ⟨?_, ?_, ?_⟩
  · intro it
    simp [matchedOf, List.mem_filter, containsB_iff]
  · by_cases h : matchedOf label searchText = []
    · simp [findTextInLabel, h]
    · simp [findTextInLabel, h]
  · intro bh byq hh hy it rest hm
    have hne : (it :: rest : List TextItem) ≠ [] := by simp
    simp only [findTextInLabel, hm, hh, hy, if_neg hne, unionFold_cons]
    refine congrArg (fun r => [r]) ?_
    rw [JRect.mk.injEq]
    refine ⟨?_, ?_, ?_, ?_⟩ <;>
      (simp only [jsub, jneg, jadd]; congr 1; ring)

/-- Witness for C4: a concrete label whose single member token is
contained in the search phrase yields the expanded, flipped rectangle. -/
theorem removal_area_spec_witness :
    findTextInLabel ⟨⟨.fin 0, .fin 0, .fin 100, .fin 50⟩,
        [⟨("sometext"), ⟨10, 10, 30, 8⟩⟩]⟩ ("SomeText") =
      [⟨.fin 8, .fin 30, .fin 34, .fin 12⟩] := by
  have h := (removal_area_spec ⟨⟨.fin 0, .fin 0, .fin 100, .fin 50⟩,
      [⟨("sometext"), ⟨10, 10, 30, 8⟩⟩]⟩ ("SomeText")).2.2 50 0 rfl rfl
      ⟨("sometext"), ⟨10, 10, 30, 8⟩⟩ [] (by decide)
  rw [h]
  norm_num

/-- C6: insertion placement puts the text at x equal to the horizontal
center of the label box minus half the text width and y equal to the
label box bottom edge plus 2; for the concrete label box
with x 0, y 0, width 200, height 50 this yields x equal to 100 minus half
the text width and y equal to 2, for any text width; the client-driven
variant centers the given x the same way. -/
theorem insertion_placement :
    (∀ (box : JRect) (bx bw textWidth : ℚ),
      box.x = .fin bx → box.width = .fin bw →
      insertionX box textWidth = .fin (bx + bw / 2 - textWidth / 2)) ∧
    (∀ (box : JRect) (byq : ℚ), box.y = .fin byq →
      insertionY box = .fin (byq + 2)) ∧
    (∀ textWidth : ℚ,
      insertionX ⟨.fin 0, .fin 0, .fin 200, .fin 50⟩ textWidth =
        .fin (100 - textWidth / 2) ∧
      insertionY ⟨.fin 0, .fin 0, .fin 200, .fin 50⟩ = .fin 2) ∧
    (∀ x y textWidth : ℚ,
      addTextPlacement x y textWidth = (x - textWidth / 2, y)) := by
  refine ⟨?_, ?_, ?_, fun x y tw => rfl⟩
  · intro box bx bw tw hx hw
    simp only [insertionX, hx, hw, jsub, jneg, jadd, jhalf]
    congr 1
    ring
  · intro box byq hy
    simp only [insertionY, hy, jadd]
  · intro tw
    constructor
    · show jadd (.fin 0) (jhalf (jsub (.fin 200) (.fin tw))) = _
      simp only [jsub, jneg, jadd, jhalf]
      congr 1
      ring
    · show jadd (.fin 0) (.fin 2) = _
      simp only [jadd]
      norm_num

/-- Witness for C6 at a concrete box and text width. -/
theorem insertion_placement_witness :
    insertionX ⟨.fin 0, .fin 0, .fin 200, .fin 50⟩ 30 =
      .fin ((0 : ℚ) + 200 / 2 - 30 / 2) ∧
    insertionY ⟨.fin 5, .fin 7, .fin 200, .fin 50⟩ = .fin ((7 : ℚ) + 2) :=
  ⟨insertion_placement.1 _ 0 200 30 rfl rfl, insertion_placement.2.1 _ 7 rfl⟩

/-- C7 (amended): for every text block that yields a token, the extractor
sets the token's position to the matrix translation, its font size
(the box height) to operand a whenever a is strictly positive and to
operand d otherwise, its width to text length times font size times 0.55
exactly, and its height to the font size exactly. -/
theorem extractor_token_fields (a b c d e f : ℚ) (text : String) :
    (mkTextItem a b c d e f text).str = text ∧
    (mkTextItem a b c d e f text).box.x = e ∧
    (mkTextItem a b c d e f text).box.y = f ∧
    (0 < a → (mkTextItem a b c d e f text).box.height = a) ∧
    (a ≤ 0 → (mkTextItem a b c d e f text).box.height = d) ∧
    (mkTextItem a b c d e f text).box.width =
      (text.length : ℚ) * (mkTextItem a b c d e f text).box.height *
        (55 / 100) := by
  refine ⟨rfl, rfl, rfl, ?_, ?_, rfl⟩
  · intro ha
    simp [mkTextItem, if_pos ha]
  · intro ha
    simp [mkTextItem, if_neg (not_lt.mpr ha)]

/-- Counterexample to C7 as stated: the matrix operand a equal to -5 is
non-zero, yet the extractor takes the font size from operand d, because
the code tests strict positivity, not non-zero-ness. -/
theorem extractor_font_size_counterexample :
    ((-5 : ℚ) ≠ 0) ∧
    (mkTextItem (-5) 0 0 7 3 4 ("hi")).box.height = 7 ∧
    (mkTextItem (-5) 0 0 7 3 4 ("hi")).box.height ≠ -5 := by
  norm_num [mkTextItem]

/-- Witness for C7 covering both branches of the font-size choice. -/
theorem extractor_token_fields_witness :
    (mkTextItem 8 0 0 9 3 4 ("ab")).box.height = 8 ∧
    (mkTextItem (-5) 0 0 7 3 4 ("cd")).box.height = 7 :=
  ⟨(extractor_token_fields 8 0 0 9 3 4 ("ab")).2.2.2.1 (by norm_num),
   (extractor_token_fields (-5) 0 0 7 3 4 ("cd")).2.2.2.2.1 (by norm_num)⟩

/-- C10 (amended): for every anchor token with non-negative width and
height strictly between 0 (inclusive) and 120 (exclusive), the anchor
satisfies its own strict window test, so the resulting label's items list
is non-empty and its box has finite coordinates with non-negative width
and height; and the degenerate box with infinite coordinates (from the
reduce over an empty member list) can arise only when the anchor's height
is at least 120 or at most -120. -/
theorem anchor_self_membership :
    (∀ (tItems : List TextItem) (pageHeight : ℚ) (anchor : TextItem),
      anchor ∈ tItems → 0 ≤ anchor.box.height → anchor.box.height < 120 →
      0 ≤ anchor.box.width →
      inWindowB anchor anchor = true ∧
      (labelForAnchor tItems pageHeight anchor).items ≠ [] ∧
      ∃ qx qy qw qh : ℚ,
        (labelForAnchor tItems pageHeight anchor).box =
          ⟨.fin qx, .fin qy, .fin qw, .fin qh⟩ ∧ 0 ≤ qw ∧ 0 ≤ qh) ∧
    (∀ (tItems : List TextItem) (pageHeight : ℚ) (anchor : TextItem),
      (labelForAnchor tItems pageHeight anchor).box.x = .pinf →
      anchor ∈ tItems →
      120 ≤ anchor.box.height ∨ anchor.box.height ≤ -120) := by
  constructor
  · intro tItems ph anchor hmem h0 h120 hw
    have hwin : inWindowB anchor anchor = true := by
      simp only [inWindowB, Bool.and_eq_true, decide_eq_true_eq]
      refine ⟨⟨⟨?_, ?_⟩, ?_⟩, ?_⟩ <;> linarith
    have hin : anchor ∈ (labelForAnchor tItems ph anchor).items :=
      List.mem_filter.mpr ⟨hmem, hwin⟩
    refine ⟨hwin, List.ne_nil_of_mem hin, ?_⟩
    obtain ⟨qa, qb, qc, qd, hu, hb1, hb2, hb3, hb4⟩ :=
      unionFold_bounds _ _ hin
    refine ⟨qa, ph - qd, qb - qa, qd - qc, ?_, by linarith, by linarith⟩
    have hbox : (labelForAnchor tItems ph anchor).box =
        labelBoxOf ph (unionFold ((labelForAnchor tItems ph anchor).items)) := rfl
    rw [hbox, hu, JRect.mk.injEq]
    refine ⟨rfl, ?_, ?_, ?_⟩ <;>
      (simp only [labelBoxOf, jsub, jneg, jadd]; congr 1; ring)
  · intro tItems ph anchor hx hmem
    by_contra hcon
    push_neg at hcon
    obtain ⟨hlt, hgt⟩ := hcon
    have hwin : inWindowB anchor anchor = true := by
      simp only [inWindowB, Bool.and_eq_true, decide_eq_true_eq]
      refine ⟨⟨⟨?_, ?_⟩, ?_⟩, ?_⟩ <;> linarith
    have hin : anchor ∈ (labelForAnchor tItems ph anchor).items :=
      List.mem_filter.mpr ⟨hmem, hwin⟩
    obtain ⟨qa, qb, qc, qd, hu, _⟩ := unionFold_bounds _ _ hin
    have hpinf : (unionFold ((labelForAnchor tItems ph anchor).items)).minX =
        .pinf := hx
    rw [hu] at hpinf
    exact absurd hpinf (by simp)

/-- Counterexample to C10 as stated: an anchor of height -130 (strictly
less than 120) fails its own window test, so its label is empty and its
box degenerate; and an anchor of negative width gives a finite box of
negative width even with height below 120. -/
theorem anchor_self_membership_counterexample :
    (labelForAnchor [(⟨("B0ABCDEFGH"), ⟨0, 0, 10, -130⟩⟩ : TextItem)] 800
        ⟨("B0ABCDEFGH"), ⟨0, 0, 10, -130⟩⟩).items = [] ∧
    ((-130 : ℚ) < 120) ∧
    (labelForAnchor [(⟨("B0ABCDEFGH"), ⟨0, 0, 10, -130⟩⟩ : TextItem)] 800
        ⟨("B0ABCDEFGH"), ⟨0, 0, 10, -130⟩⟩).box.x = .pinf ∧
    (labelForAnchor [(⟨("B0ABCDEFGH"), ⟨0, 0, -10, 5⟩⟩ : TextItem)] 800
        ⟨("B0ABCDEFGH"), ⟨0, 0, -10, 5⟩⟩).box.width = .fin (-10) ∧
    ((5 : ℚ) < 120) := by
  refine ⟨?_, by norm_num, ?_, ?_, by norm_num⟩
  · norm_num [labelForAnchor, List.filter, inWindowB]
  · norm_num [labelForAnchor, List.filter, inWindowB, unionFold, labelBoxOf]
  · norm_num [labelForAnchor, List.filter, inWindowB, unionFold, unionStep,
      List.foldl, labelBoxOf, jmin, jmax, jsub, jneg, jadd]

/-- Witness for C10 at a concrete well-behaved anchor and at a concrete
degenerate anchor of height 200. -/
theorem anchor_self_membership_witness :
    (inWindowB ⟨("B0ABCDEFGH"), ⟨100, 92, 55, 8⟩⟩
        ⟨("B0ABCDEFGH"), ⟨100, 92, 55, 8⟩⟩ = true ∧
      (labelForAnchor [(⟨("B0ABCDEFGH"), ⟨100, 92, 55, 8⟩⟩ : TextItem)] 800
          ⟨("B0ABCDEFGH"), ⟨100, 92, 55, 8⟩⟩).items ≠ [] ∧
      ∃ qx qy qw qh : ℚ,
        (labelForAnchor [(⟨("B0ABCDEFGH"), ⟨100, 92, 55, 8⟩⟩ : TextItem)] 800
            ⟨("B0ABCDEFGH"), ⟨100, 92, 55, 8⟩⟩).box =
          ⟨.fin qx, .fin qy, .fin qw, .fin qh⟩ ∧ 0 ≤ qw ∧ 0 ≤ qh) ∧
    (120 ≤ (200 : ℚ) ∨ (200 : ℚ) ≤ -120) :=
  ⟨anchor_self_membership.1 _ 800 _ (List.mem_cons_self _ _)
      (by norm_num) (by norm_num) (by norm_num),
   anchor_self_membership.2
      [(⟨("B0ABCDEFGH"), ⟨0, 0, 10, 200⟩⟩ : TextItem)] 800
      ⟨("B0ABCDEFGH"), ⟨0, 0, 10, 200⟩⟩
      (by norm_num [labelForAnchor, List.filter, inWindowB, unionFold,
        labelBoxOf])
      (List.mem_cons_self _ _)⟩

end AmazonLabelTool
